import Mathlib

/-!
Shallow embedding of the `KVStore` class (Node.js, `src/kvStore.js`) and
proofs about its operations.  Values are modelled by a JSON value type,
sizes by the byte length of the canonical `JSON.stringify` encoding, and
the store state by an explicit structure (in-memory map, per-key lock
table, running size counter, dirty flag, debounce-timer flag and the
constructor-time configuration).  Operations are modelled as pure state
transformers in the sequential execution model: one logical operation runs
at a time, so a lock that is already held when an operation polls for it is
never released during the poll and the bounded retry deterministically
times out.  Machine numbers (`Date.now()` timestamps, byte counts) are
modelled as `Int`/`Nat`; JavaScript truthiness of the `expiry` field
(where the number `0` is falsy) is modelled explicitly.
-/

/-- JSON-serializable values (the integer fragment of JS numbers). -/
inductive JValue where
  | null : JValue
  | bool : Bool → JValue
  | num : Int → JValue
  | str : String → JValue
  | arr : List JValue → JValue
  | obj : List (String × JValue) → JValue
deriving Repr

/-- Lower-case hexadecimal digit, as produced by `JSON.stringify` escapes. -/
def hexDigitChar (n : Nat) : Char :=
  if n < 10 then Char.ofNat (48 + n) else Char.ofNat (87 + n)

/-- Escape of a single character inside a JSON string literal, following
`JSON.stringify`: quote, backslash, the short control escapes, and
`\u00XX` for the remaining control characters. -/
def jsonEscapeChar (c : Char) : String :=
  if c = Char.ofNat 34 then "\\\""
  else if c = Char.ofNat 92 then "\\\\"
  else if c = Char.ofNat 8 then "\\b"
  else if c = Char.ofNat 9 then "\\t"
  else if c = Char.ofNat 10 then "\\n"
  else if c = Char.ofNat 12 then "\\f"
  else if c = Char.ofNat 13 then "\\r"
  else if c.toNat < 32 then
    "\\u00" ++ String.singleton (hexDigitChar (c.toNat / 16)) ++
      String.singleton (hexDigitChar (c.toNat % 16))
  else String.singleton c

/-- Escape every character of a string for a JSON string literal. -/
def jsonEscape (s : String) : String :=
  s.data.foldl (fun acc c => acc ++ jsonEscapeChar c) ""

/-- A JSON string literal: `"` + escaped body + `"`. -/
def jsonQuote (s : String) : String :=
  "\"" ++ jsonEscape s ++ "\""

/-- Opening brace of a JSON object. -/
def lbrace : String := "\x7b"

/-- Closing brace of a JSON object. -/
def rbrace : String := "\x7d"

mutual

/-- `JSON.stringify` on the modelled values (no spacing, insertion order). -/
def JValue.stringify : JValue → String
  | .null => "null"
  | .bool true => "true"
  | .bool false => "false"
  | .num n => toString n
  | .str s => jsonQuote s
  | .arr xs => "[" ++ stringifyList xs ++ "]"
  | .obj fs => lbrace ++ stringifyFields fs ++ rbrace

/-- Comma-separated serialization of array elements. -/
def stringifyList : List JValue → String
  | [] => ""
  | [x] => JValue.stringify x
  | x :: y :: rest => JValue.stringify x ++ "," ++ stringifyList (y :: rest)

/-- Comma-separated serialization of object properties. -/
def stringifyFields : List (String × JValue) → String
  | [] => ""
  | [(k, v)] => jsonQuote k ++ ":" ++ JValue.stringify v
  | (k, v) :: f :: rest =>
      jsonQuote k ++ ":" ++ JValue.stringify v ++ "," ++ stringifyFields (f :: rest)

end

/-- Byte length of a string's UTF-8 encoding (`Buffer.from(s).length`). -/
def byteLen (s : String) : Nat := s.utf8ByteSize

/-- One stored entry: `{ value, expiry }` with `expiry` an epoch-millisecond
timestamp or `null`. -/
structure KVEntry where
  value : JValue
  expiry : Option Int
deriving Repr

/-- The error outcomes of the store's operations, one constructor per
distinct `throw` site family in the source. -/
inductive KVError where
  | invalidKey : KVError
  | valueTooLarge : KVError
  | keyExists : KVError
  | quotaExceeded : KVError
  | keyNotFound : Bool → KVError
  | lockTimeout : String → KVError
  | batchTooLarge : KVError
  | permissionDenied : KVError
  | renameFailed : KVError
  | saveFailed : KVError → KVError
deriving Repr, DecidableEq

/-- The mutable state of a `KVStore` instance together with its
constructor-time configuration. `timerSet` models `saveTimeout` being a
live timer handle. -/
structure KVStore where
  data : List (String × KVEntry)
  lock : List String
  currentSize : Int
  isDirty : Bool
  timerSet : Bool
  maxBatchSize : Nat
  maxFileSize : Int
  maxValueSize : Nat
  maxKeyLength : Nat
deriving Repr

/-- `Map.prototype.get` on the association-list model of `this.data`. -/
def mapGet (m : List (String × KVEntry)) (k : String) : Option KVEntry :=
  match m with
  | [] => none
  | (k', v) :: rest => if k' = k then some v else mapGet rest k

/-- `Map.prototype.set`: update in place when present, append when fresh
(preserving the Map's insertion order). -/
def mapSet (m : List (String × KVEntry)) (k : String) (v : KVEntry) :
    List (String × KVEntry) :=
  match m with
  | [] => [(k, v)]
  | (k', v') :: rest =>
      if k' = k then (k, v) :: rest else (k', v') :: mapSet rest k v

/-- `Map.prototype.delete`: remove the entry for `k` when present. -/
def mapDelete (m : List (String × KVEntry)) (k : String) :
    List (String × KVEntry) :=
  match m with
  | [] => []
  | (k', v') :: rest => if k' = k then rest else (k', v') :: mapDelete rest k

/-- `estimateEntrySize(key, value)`: byte length of
`JSON.stringify({[key]: {value, expiry: null}})`. -/
def estimateEntrySize (key : String) (value : JValue) : Nat :=
  byteLen (JValue.stringify (.obj [(key, .obj [("value", value), ("expiry", .null)])]))

/-- Sum of `estimateEntrySize` over the entries of the map, as computed by
the recomputation loop in `saveData` and `loadData`. -/
def sumSizes (m : List (String × KVEntry)) : Int :=
  m.foldl (fun acc kv => acc + (estimateEntrySize kv.1 kv.2.value : Int)) 0

/-- `validateKey`: keys are strings in the model, so only the length bound
(`key.length > this.maxKeyLength`) can fail. -/
def validateKey (s : KVStore) (key : String) : Option KVError :=
  if key.length > s.maxKeyLength then some .invalidKey else none

/-- `validateValue`: fails when `Buffer.from(JSON.stringify(value)).length`
exceeds `maxValueSize`. -/
def validateValue (s : KVStore) (value : JValue) : Option KVError :=
  if byteLen (JValue.stringify value) > s.maxValueSize then some .valueTooLarge
  else none

/-- `ttl ? Date.now() + ttl * 1000 : null` — note that a `ttl` equal to `0`
is falsy in JavaScript, while any other number (negative included) takes
the truthy branch. -/
def ttlExpiry (ttl : Option Int) (now : Int) : Option Int :=
  match ttl with
  | none => none
  | some t => if t = 0 then none else some (now + t * 1000)

/-- `!item.expiry || item.expiry > now`: the entry counts as live.  A
stored expiry equal to `0` is falsy in JavaScript and therefore also
counts as "no expiry". -/
def entryLive (e : KVEntry) (now : Int) : Bool :=
  match e.expiry with
  | none => true
  | some x => x == 0 || x > now

/-- `item.expiry && item.expiry <= now`: the expired-entry test used by
`read`, `delete` and `compact`. -/
def entryExpired (e : KVEntry) (now : Int) : Bool :=
  match e.expiry with
  | none => false
  | some x => x != 0 && x ≤ now

/-- The existing-unexpired-key test shared by `create` and `batchCreate`:
`this.data.has(key)` and the stored entry is live at `now`. -/
def hasLiveKey (s : KVStore) (key : String) (now : Int) : Bool :=
  match mapGet s.data key with
  | some existing => entryLive existing now
  | none => false

/-- `acquireLock(key)` in the sequential execution model: if the lock is
already held it is never released while this operation polls, so the
bounded retry deterministically fails with the lock-timeout error;
otherwise the key is marked held. -/
def acquireLock (s : KVStore) (key : String) : Except KVError KVStore :=
  if s.lock.contains key then .error (.lockTimeout key)
  else .ok { s with lock := key :: s.lock }

/-- `releaseLock(key)`: `this.lock.delete(key)`. -/
def releaseLock (s : KVStore) (key : String) : KVStore :=
  { s with lock := s.lock.erase key }

/-- `scheduleSave()`: mark dirty and (re)arm the debounce timer. -/
def scheduleSave (s : KVStore) : KVStore :=
  { s with isDirty := true, timerSet := true }

/-- The in-memory effect of a `saveData()` call whose file I/O succeeds:
recompute the total from the index, fail `QuotaExceeded` above the limit,
otherwise install the recomputed total and clear the dirty flag. -/
def saveDataMem (s : KVStore) : Except KVError KVStore :=
  if sumSizes s.data > s.maxFileSize then .error .quotaExceeded
  else .ok { s with currentSize := sumSizes s.data, isDirty := false }

/-- `queueSave()` in the sequential model (no save already in flight): run
`saveData` and wrap any failure in the `Failed to save data` error. -/
def queueSave (s : KVStore) : Except KVError KVStore :=
  match saveDataMem s with
  | .ok s' => .ok s'
  | .error e => .error (.saveFailed e)

/-- The `try` block of `create` starting after the lock is acquired:
incremental quota check, unexpired-duplicate check, insert, size increment,
`await queueSave()`.  Returns the error (if any) together with the state at
the moment the error was thrown, as the `catch` block observes it. -/
def createTry (s1 : KVStore) (key : String) (value : JValue) (ttl : Option Int)
    (now : Int) (entrySize : Int) : Option KVError × KVStore :=
  if s1.currentSize + entrySize > s1.maxFileSize then (some .quotaExceeded, s1)
  else
    if hasLiveKey s1 key now then (some .keyExists, s1)
    else
      let s2 : KVStore :=
        { s1 with data := mapSet s1.data key ⟨value, ttlExpiry ttl now⟩,
                  currentSize := s1.currentSize + entrySize }
      match queueSave s2 with
      | .ok s3 => (none, s3)
      | .error e => (some e, s2)

/-- `create(key, value, ttl)`.  On any error thrown inside the `try` block
the `catch` block runs `this.data.delete(key)` and
`this.currentSize -= entrySize` (the rollback), and the `finally` block
releases the key's lock on every path that acquired it. -/
def KVStore.create (s : KVStore) (key : String) (value : JValue)
    (ttl : Option Int) (now : Int) : Except KVError Unit × KVStore :=
  match validateKey s key with
  | some e => (.error e, s)
  | none =>
    match validateValue s value with
    | some e => (.error e, s)
    | none =>
      let entrySize : Int := estimateEntrySize key value
      match acquireLock s key with
      | .error e => (.error e, s)
      | .ok s1 =>
        match createTry s1 key value ttl now entrySize with
        | (none, s2) => (.ok (), releaseLock s2 key)
        | (some e, s2) =>
            let s3 : KVStore :=
              { s2 with data := mapDelete s2.data key,
                        currentSize := s2.currentSize - entrySize }
            (.error e, releaseLock s3 key)

/-- `read(key)`: validate, lock, fail on absence, lazily evict and fail on
expiry, otherwise return the stored value; the lock is released on every
path that acquired it. -/
def KVStore.read (s : KVStore) (key : String) (now : Int) :
    Except KVError JValue × KVStore :=
  match validateKey s key with
  | some e => (.error e, s)
  | none =>
    match acquireLock s key with
    | .error e => (.error e, s)
    | .ok s1 =>
      match mapGet s1.data key with
      | none => (.error (.keyNotFound false), releaseLock s1 key)
      | some item =>
        if entryExpired item now then
          let s2 := scheduleSave { s1 with data := mapDelete s1.data key }
          (.error (.keyNotFound true), releaseLock s2 key)
        else
          (.ok item.value, releaseLock s1 key)

/-- `delete(key)`: validate, lock, fail on absence, lazily evict and fail
on expiry, otherwise remove the entry and schedule a debounced save; the
running size counter is not touched on any path. -/
def KVStore.delete (s : KVStore) (key : String) (now : Int) :
    Except KVError Unit × KVStore :=
  match validateKey s key with
  | some e => (.error e, s)
  | none =>
    match acquireLock s key with
    | .error e => (.error e, s)
    | .ok s1 =>
      match mapGet s1.data key with
      | none => (.error (.keyNotFound false), releaseLock s1 key)
      | some item =>
        if entryExpired item now then
          let s2 := scheduleSave { s1 with data := mapDelete s1.data key }
          (.error (.keyNotFound true), releaseLock s2 key)
        else
          let s2 := scheduleSave { s1 with data := mapDelete s1.data key }
          (.ok (), releaseLock s2 key)

/-- The validation loop of `batchCreate`: for each triple validate key and
value (a validation failure records the key in `failedKeys`); a triple that
passes validation adds its estimated size to `totalNewSize` *before* the
duplicate check; a triple whose key already holds a live entry in the
pre-batch index records the key in `failedKeys`; the remaining triples are
the surviving candidates, in order.  Returns
(`failedKeys`, `validItems`, `totalNewSize`). -/
def batchValidate (s : KVStore) (now : Int)
    (items : List (String × JValue × Option Int)) :
    List String × List (String × JValue × Option Int) × Int :=
  match items with
  | [] => ([], [], 0)
  | (key, value, ttl) :: rest =>
    let (fk, vi, tot) := batchValidate s now rest
    match validateKey s key with
    | some _ => (key :: fk, vi, tot)
    | none =>
      match validateValue s value with
      | some _ => (key :: fk, vi, tot)
      | none =>
        let entrySize : Int := estimateEntrySize key value
        if hasLiveKey s key now then (key :: fk, vi, entrySize + tot)
        else (fk, (key, value, ttl) :: vi, entrySize + tot)

/-- The lock-acquisition loop of `batchCreate`: acquire the per-key lock of
every surviving candidate in order, accumulating the acquired set; on a
lock failure return the error together with the state and the locks
acquired so far. -/
def batchAcquire (s : KVStore) (keys : List String) (acquired : List String) :
    Option KVError × KVStore × List String :=
  match keys with
  | [] => (none, s, acquired)
  | k :: ks =>
    match acquireLock s k with
    | .error e => (some e, s, acquired)
    | .ok s1 => batchAcquire s1 ks (k :: acquired)

/-- Release every lock in the accumulated set (the `finally` block of
`batchCreate`). -/
def releaseMany (s : KVStore) (keys : List String) : KVStore :=
  keys.foldl releaseLock s

/-- Insert every surviving candidate into the index in batch order, each
with its expiry computed from the shared instant; the running size counter
is not touched. -/
def batchInsert (s : KVStore) (items : List (String × JValue × Option Int))
    (now : Int) : KVStore :=
  items.foldl
    (fun st it => { st with data := mapSet st.data it.1 ⟨it.2.1, ttlExpiry it.2.2 now⟩ })
    s

/-- `batchCreate(items)`: length guard, validation loop, all-or-nothing
quota guard over `totalNewSize`, lock acquisition for the surviving
candidates, insertion, one debounced save, release of all acquired locks
(also when lock acquisition failed midway). -/
def KVStore.batchCreate (s : KVStore)
    (items : List (String × JValue × Option Int)) (now : Int) :
    Except KVError (List String) × KVStore :=
  if items.length > s.maxBatchSize then (.error .batchTooLarge, s)
  else
    let (failedKeys, validItems, totalNewSize) := batchValidate s now items
    if s.currentSize + totalNewSize > s.maxFileSize then (.error .quotaExceeded, s)
    else
      match batchAcquire s (validItems.map (·.1)) [] with
      | (some e, s1, acquired) => (.error e, releaseMany s1 acquired)
      | (none, s1, acquired) =>
          let s2 := scheduleSave (batchInsert s1 validItems now)
          (.ok failedKeys, releaseMany s2 acquired)

/-- `compact()`: under the `"compact"` sentinel lock, sweep every expired
entry out of the index, then run one synchronous `saveData`; the lock is
released on every path that acquired it. -/
def KVStore.compact (s : KVStore) (now : Int) : Except KVError Unit × KVStore :=
  match acquireLock s "compact" with
  | .error e => (.error e, s)
  | .ok s1 =>
    let s2 : KVStore :=
      { s1 with data := s1.data.filter (fun kv => !entryExpired kv.2 now) }
    match saveDataMem s2 with
    | .ok s3 => (.ok (), releaseLock s3 "compact")
    | .error e => (.error e, releaseLock s2 "compact")

/-- The backing file and its temporary sibling, each modelled at the level
of the parsed JSON object (a JSON object round-trips through
`JSON.stringify`/`JSON.parse` with unique keys in insertion order). -/
structure FileSys where
  file : List (String × KVEntry)
  temp : Option (List (String × KVEntry))
deriving Repr

/-- The injected file-system outcome of one `saveData` attempt: all I/O
succeeds, the temp-file write fails with `EACCES`, or the rename fails. -/
inductive SaveFault where
  | ok : SaveFault
  | writeDenied : SaveFault
  | renameFail : SaveFault
deriving Repr, DecidableEq

/-- `saveData()` with the file system explicit: recompute the total from
the index and fail `QuotaExceeded` before touching any file; write the
serialization to the temporary sibling (an `EACCES` failure is reported as
the permission error); rename the temp file over the real path, removing
the temp file and propagating the error when the rename fails; only on
full success install the recomputed total, clear the dirty flag and leave
the file holding the serialized index. -/
def saveData (s : KVStore) (fs : FileSys) (fault : SaveFault) :
    Option KVError × KVStore × FileSys :=
  if sumSizes s.data > s.maxFileSize then (some .quotaExceeded, s, fs)
  else
    match fault with
    | .writeDenied => (some .permissionDenied, s, fs)
    | .renameFail => (some .renameFailed, s, { file := fs.file, temp := none })
    | .ok =>
        (none,
         { s with currentSize := sumSizes s.data, isDirty := false },
         { file := s.data, temp := none })

/-- The JSON value a stored entry serializes to in the backing file:
`{ "value": <payload>, "expiry": <epoch-ms integer or null> }`. -/
def entryToJson (e : KVEntry) : JValue :=
  .obj [("value", e.value),
        ("expiry", match e.expiry with | none => .null | some x => .num x)]

/-- The JSON object `saveData` serializes the whole index to: one property
per key, in index order. -/
def serializeIndex (m : List (String × KVEntry)) : JValue :=
  .obj (m.map (fun kv => (kv.1, entryToJson kv.2)))

/-- Byte size on disk of the file holding the serialized index — what
`fsp.stat` reports for a file written by `saveData` (UTF-8, no spacing). -/
def fileByteSize (m : List (String × KVEntry)) : Nat :=
  byteLen (JValue.stringify (serializeIndex m))

/-- The rebuild loop of `loadData` on the parsed entries: clear the index
and the counter, then re-insert every entry that is live at load time,
adding its estimated size to the counter. -/
def loadEntries (s : KVStore) (fileEntries : List (String × KVEntry)) (now : Int) :
    KVStore :=
  fileEntries.foldl
    (fun st kv =>
      if entryLive kv.2 now then
        { st with data := mapSet st.data kv.1 kv.2,
                  currentSize := st.currentSize + (estimateEntrySize kv.1 kv.2.value : Int) }
      else st)
    { s with data := [], currentSize := 0 }

/-- `loadData()` on a readable file: first the `stats.size` guard — if the
file's byte size exceeds `maxFileSize` the load fails `QuotaExceeded`
before parsing; otherwise rebuild the index and counter from the entries
live at load time.  The file is modelled at the level of the parsed JSON
object, so the byte size `fsp.stat` reports for a file written by
`saveData` is recomputed with `fileByteSize`. -/
def loadData (s : KVStore) (fileEntries : List (String × KVEntry)) (now : Int) :
    Except KVError KVStore :=
  if (fileByteSize fileEntries : Int) > s.maxFileSize then .error .quotaExceeded
  else .ok (loadEntries s fileEntries now)

/-- A store with the constructor's default configuration (`maxBatchSize`
1000, `maxFileSize` 1 GiB, `maxValueSize` 16 KiB, `maxKeyLength` 32), the
given index contents and running size, no held locks, clean flags. -/
def mkStore (data : List (String × KVEntry)) (currentSize : Int) : KVStore :=
  { data := data, lock := [], currentSize := currentSize,
    isDirty := false, timerSet := false,
    maxBatchSize := 1000, maxFileSize := 1024 * 1024 * 1024,
    maxValueSize := 16 * 1024, maxKeyLength := 32 }

/-- Like `mkStore` but with the `options.maxFileSize` override the
constructor accepts. -/
def mkStoreMax (maxFileSize : Int) (data : List (String × KVEntry))
    (currentSize : Int) : KVStore :=
  { mkStore data currentSize with maxFileSize := maxFileSize }

/-- A store observed mid-compaction: the sentinel `"compact"` lock is held
and the index holds one unexpired entry. -/
def sentinelStore : KVStore :=
  { mkStore [("k", ⟨.str "v", none⟩)] (estimateEntrySize "k" (.str "v") : Int) with
      lock := ["compact"] }

/-- Spec-side characterization used by the amended C4 claim: the sum of the
estimated sizes of exactly the batch items that pass key and value
validation (collided items included). -/
def validatedSizeSum (s : KVStore) (items : List (String × JValue × Option Int)) : Int :=
  match items with
  | [] => 0
  | (key, value, _) :: rest =>
      if (validateKey s key).isNone ∧ (validateValue s value).isNone then
        (estimateEntrySize key value : Int) + validatedSizeSum s rest
      else validatedSizeSum s rest
theorem mapGet_mapSet_self (m : List (String × KVEntry)) (k : String) (v : KVEntry) :
    mapGet (mapSet m k v) k = some v := by
  induction m with
  | nil => simp [mapSet, mapGet]
  | cons hd tl ih =>
    obtain ⟨k', v'⟩ := hd
    by_cases h : k' = k
    · simp [mapSet, mapGet, h]
    · simp [mapSet, mapGet, h, ih]

theorem mapSet_of_get_none (m : List (String × KVEntry)) (k : String) (v : KVEntry)
    (h : mapGet m k = none) : mapSet m k v = m ++ [(k, v)] := by
  induction m with
  | nil => simp [mapSet]
  | cons hd tl ih =>
    obtain ⟨k', v'⟩ := hd
    by_cases hk : k' = k
    · simp [mapGet, hk] at h
    · simp [mapGet, hk] at h
      simp [mapSet, hk, ih h]

theorem sumSizes_go (l : List (String × KVEntry)) (a : Int) :
    l.foldl (fun acc kv => acc + (estimateEntrySize kv.1 kv.2.value : Int)) a
      = a + sumSizes l := by
  induction l generalizing a with
  | nil => simp [sumSizes]
  | cons hd tl ih =>
    simp only [sumSizes, List.foldl_cons] at *
    rw [ih, ih (0 + _)]
    ring

theorem sumSizes_cons (hd : String × KVEntry) (tl : List (String × KVEntry)) :
    sumSizes (hd :: tl) = (estimateEntrySize hd.1 hd.2.value : Int) + sumSizes tl := by
  simp only [sumSizes, List.foldl_cons]
  rw [sumSizes_go]
  ring_nf
  rw [sumSizes]

theorem sumSizes_append (l1 l2 : List (String × KVEntry)) :
    sumSizes (l1 ++ l2) = sumSizes l1 + sumSizes l2 := by
  induction l1 with
  | nil => simp [sumSizes]
  | cons hd tl ih => simp only [List.cons_append, sumSizes_cons, ih]; ring

theorem saveDataMem_lock (s s' : KVStore) (h : saveDataMem s = .ok s') :
    s'.lock = s.lock := by
  unfold saveDataMem at h
  split at h
  · cases h
  · cases h; rfl

theorem saveDataMem_data (s s' : KVStore) (h : saveDataMem s = .ok s') :
    s'.data = s.data := by
  unfold saveDataMem at h
  split at h
  · cases h
  · cases h; rfl

theorem queueSave_ok (s s' : KVStore) (h : queueSave s = .ok s') :
    sumSizes s.data ≤ s.maxFileSize ∧
      s' = { s with currentSize := sumSizes s.data, isDirty := false } := by
  unfold queueSave saveDataMem at h
  split at h
  · next h2 =>
    split at h2
    · cases h2
    · next hle =>
      cases h2
      cases h
      exact ⟨by omega, rfl⟩
  · cases h

theorem queueSave_lock (s s' : KVStore) (h : queueSave s = .ok s') :
    s'.lock = s.lock := by
  unfold queueSave at h
  split at h
  · next heq => cases h; exact saveDataMem_lock _ _ heq
  · cases h

theorem createTry_lock (s1 : KVStore) (key : String) (value : JValue)
    (ttl : Option Int) (now : Int) (entrySize : Int) :
    (createTry s1 key value ttl now entrySize).2.lock = s1.lock := by
  unfold createTry
  split
  · rfl
  · split
    · rfl
    · dsimp only
      split
      · next s3 h =>
          have h2 := queueSave_lock _ _ h
          exact h2
      · rfl

theorem acquireLock_ok (s s1 : KVStore) (key : String)
    (h : acquireLock s key = .ok s1) :
    s.lock.contains key = false ∧ s1 = { s with lock := key :: s.lock } := by
  unfold acquireLock at h
  split at h
  · cases h
  · next hcon => cases h; exact ⟨by simpa using hcon, rfl⟩

theorem create_lock_eq (s : KVStore) (key : String) (value : JValue)
    (ttl : Option Int) (now : Int) :
    (KVStore.create s key value ttl now).2.lock = s.lock := by
  unfold KVStore.create
  split
  · rfl
  · split
    · rfl
    · dsimp only
      split
      · rfl
      · next s1 heq =>
        obtain ⟨hcon, rfl⟩ := acquireLock_ok _ _ _ heq
        split
        · next s2 heq2 =>
          have h2 := createTry_lock { s with lock := key :: s.lock } key value ttl now (estimateEntrySize key value : Int)
          rw [heq2] at h2
          simp at h2
          simp [releaseLock, h2]
        · next e s2 heq2 =>
          have h2 := createTry_lock { s with lock := key :: s.lock } key value ttl now (estimateEntrySize key value : Int)
          rw [heq2] at h2
          simp at h2
          simp [releaseLock, h2]

theorem read_lock_eq (s : KVStore) (key : String) (now : Int) :
    (KVStore.read s key now).2.lock = s.lock := by
  unfold KVStore.read
  split
  · rfl
  · split
    · rfl
    · next s1 heq =>
      obtain ⟨hcon, rfl⟩ := acquireLock_ok _ _ _ heq
      split
      · simp [releaseLock]
      · split
        · simp [releaseLock, scheduleSave]
        · simp [releaseLock]

theorem delete_lock_eq (s : KVStore) (key : String) (now : Int) :
    (KVStore.delete s key now).2.lock = s.lock := by
  unfold KVStore.delete
  split
  · rfl
  · split
    · rfl
    · next s1 heq =>
      obtain ⟨hcon, rfl⟩ := acquireLock_ok _ _ _ heq
      split
      · simp [releaseLock]
      · split
        · simp [releaseLock, scheduleSave]
        · simp [releaseLock, scheduleSave]

theorem compact_lock_eq (s : KVStore) (now : Int) :
    (KVStore.compact s now).2.lock = s.lock := by
  unfold KVStore.compact
  split
  · rfl
  · next s1 heq =>
    obtain ⟨hcon, rfl⟩ := acquireLock_ok _ _ _ heq
    dsimp only
    split
    · next s3 heq2 =>
      have h2 := saveDataMem_lock _ _ heq2
      simp at h2
      simp [releaseLock, h2]
    · simp [releaseLock]

theorem releaseMany_eq (ks : List String) (s : KVStore) :
    releaseMany s ks = { s with lock := ks.foldl List.erase s.lock } := by
  induction ks generalizing s with
  | nil => rfl
  | cons k ks ih =>
    show releaseMany (releaseLock s k) ks = _
    rw [ih]
    rfl

theorem batchInsert_lock (items : List (String × JValue × Option Int))
    (s : KVStore) (now : Int) : (batchInsert s items now).lock = s.lock := by
  induction items generalizing s with
  | nil => rfl
  | cons it items ih =>
    show (batchInsert _ items now).lock = s.lock
    rw [ih]

theorem batchAcquire_erase (ks : List String) (s : KVStore) (acc : List String) :
    (batchAcquire s ks acc).2.2.foldl List.erase (batchAcquire s ks acc).2.1.lock
      = acc.foldl List.erase s.lock := by
  induction ks generalizing s acc with
  | nil => rfl
  | cons k ks ih =>
    simp only [batchAcquire]
    split
    · rfl
    · next s1 heq =>
      obtain ⟨hcon, rfl⟩ := acquireLock_ok _ _ _ heq
      rw [ih]
      simp

theorem batchAcquire_err (ks : List String) (s : KVStore) (acc : List String) :
    (batchAcquire s ks acc).1 = none ∨
      ∃ k, (batchAcquire s ks acc).1 = some (.lockTimeout k) := by
  induction ks generalizing s acc with
  | nil => exact .inl rfl
  | cons k ks ih =>
    simp only [batchAcquire]
    split
    · next e heq =>
      have : e = .lockTimeout k := by
        unfold acquireLock at heq
        split at heq
        · cases heq; rfl
        · cases heq
      exact .inr ⟨k, by simp [this]⟩
    · exact ih _ _

theorem batchCreate_lock_eq (s : KVStore)
    (items : List (String × JValue × Option Int)) (now : Int) :
    (KVStore.batchCreate s items now).2.lock = s.lock := by
  unfold KVStore.batchCreate
  split
  · rfl
  · dsimp only
    split
    · rfl
    · split
      · next e s1 acquired heq =>
        have h := batchAcquire_erase ((batchValidate s now items).2.1.map (·.1)) s []
        rw [heq] at h
        simp at h
        rw [releaseMany_eq]
        exact h
      · next s1 acquired heq =>
        have h := batchAcquire_erase ((batchValidate s now items).2.1.map (·.1)) s []
        rw [heq] at h
        simp at h
        rw [releaseMany_eq]
        simp [scheduleSave, batchInsert_lock]
        exact h

theorem createTry_ok (s1 : KVStore) (key : String) (value : JValue)
    (ttl : Option Int) (now : Int) (es : Int) (s2 : KVStore)
    (h : createTry s1 key value ttl now es = (none, s2)) :
    s2 = { s1 with data := mapSet s1.data key ⟨value, ttlExpiry ttl now⟩,
                   currentSize := sumSizes (mapSet s1.data key ⟨value, ttlExpiry ttl now⟩),
                   isDirty := false } ∧
    sumSizes (mapSet s1.data key ⟨value, ttlExpiry ttl now⟩) ≤ s1.maxFileSize := by
  unfold createTry at h
  split at h
  · cases h
  · split at h
    · cases h
    · dsimp only at h
      split at h
      · next s3 heq =>
        cases h
        obtain ⟨hle, rfl⟩ := queueSave_ok _ _ heq
        exact ⟨rfl, hle⟩
      · cases h

theorem create_ok_spec (s : KVStore) (key : String) (value : JValue)
    (ttl : Option Int) (now : Int)
    (h : (KVStore.create s key value ttl now).1 = .ok ()) :
    (KVStore.create s key value ttl now).2
      = { s with data := mapSet s.data key ⟨value, ttlExpiry ttl now⟩,
                 currentSize := sumSizes (mapSet s.data key ⟨value, ttlExpiry ttl now⟩),
                 isDirty := false } ∧
    sumSizes (mapSet s.data key ⟨value, ttlExpiry ttl now⟩) ≤ s.maxFileSize := by
  unfold KVStore.create at *
  split at h
  · cases h
  · split at h
    · cases h
    · dsimp only at *
      split at h
      · cases h
      · next s1 heq =>
        obtain ⟨hcon, rfl⟩ := acquireLock_ok _ _ _ heq
        split at h
        · next s2 heq2 =>
          obtain ⟨rfl, hle⟩ := createTry_ok _ _ _ _ _ _ _ heq2
          refine ⟨?_, hle⟩
          simp [releaseLock]
        · cases h

theorem delete_ok_spec (s : KVStore) (key : String) (now : Int)
    (h : (KVStore.delete s key now).1 = .ok ()) :
    (KVStore.delete s key now).2
      = { s with data := mapDelete s.data key, isDirty := true, timerSet := true } := by
  unfold KVStore.delete at *
  split at h
  · cases h
  · split at h
    · cases h
    · next s1 heq =>
      obtain ⟨hcon, rfl⟩ := acquireLock_ok _ _ _ heq
      split at h
      · cases h
      · split at h
        · cases h
        · next hexp =>
            rw [if_neg hexp]
            simp [releaseLock, scheduleSave]

theorem validateKey_none (s : KVStore) (key : String)
    (h : key.length ≤ s.maxKeyLength) : validateKey s key = none := by
  unfold validateKey
  rw [if_neg]
  omega

/-- C7: for every valid key whose lock is free, `read` fails with the
`KeyNotFound` error kind when the key is absent; when the key is present
with an expiry at-or-before `now` it removes the entry, schedules a
debounced save (dirty flag and timer set) and fails with the same
`KeyNotFound` kind (the `Bool` argument models the "(expired)" message
suffix); otherwise it returns the stored value and leaves the store
unchanged. -/
theorem read_contract (s : KVStore) (key : String) (now : Int)
    (hvk : key.length ≤ s.maxKeyLength) (hlock : s.lock.contains key = false) :
    (mapGet s.data key = none →
        KVStore.read s key now = (.error (.keyNotFound false), s)) ∧
    (∀ item, mapGet s.data key = some item → entryExpired item now = true →
        KVStore.read s key now
          = (.error (.keyNotFound true),
             { s with data := mapDelete s.data key, isDirty := true, timerSet := true })) ∧
    (∀ item, mapGet s.data key = some item → entryExpired item now = false →
        KVStore.read s key now = (.ok item.value, s)) := by
  have hv := validateKey_none s key hvk
  refine ⟨?_, ?_, ?_⟩
  · intro habs
    unfold KVStore.read
    rw [hv]
    dsimp only
    unfold acquireLock
    rw [if_neg (by rw [hlock]; exact Bool.false_ne_true)]
    dsimp only
    rw [habs]
    dsimp only
    simp [releaseLock]
  · intro item hget hexp
    unfold KVStore.read
    rw [hv]
    dsimp only
    unfold acquireLock
    rw [if_neg (by rw [hlock]; exact Bool.false_ne_true)]
    dsimp only
    rw [hget]
    dsimp only
    rw [if_pos hexp]
    simp [releaseLock, scheduleSave]
  · intro item hget hexp
    unfold KVStore.read
    rw [hv]
    dsimp only
    unfold acquireLock
    rw [if_neg (by rw [hlock]; exact Bool.false_ne_true)]
    dsimp only
    rw [hget]
    dsimp only
    rw [if_neg (by simp [hexp])]
    simp [releaseLock]

theorem create_run (s : KVStore) (key : String) (value : JValue)
    (ttl : Option Int) (now : Int)
    (hvk : key.length ≤ s.maxKeyLength)
    (hvv : byteLen (JValue.stringify value) ≤ s.maxValueSize)
    (hlock : s.lock.contains key = false)
    (hquota : s.currentSize + (estimateEntrySize key value : Int) ≤ s.maxFileSize)
    (hdup : hasLiveKey s key now = false)
    (hsave : sumSizes (mapSet s.data key ⟨value, ttlExpiry ttl now⟩) ≤ s.maxFileSize) :
    KVStore.create s key value ttl now
      = (.ok (), { s with data := mapSet s.data key ⟨value, ttlExpiry ttl now⟩,
                          currentSize := sumSizes (mapSet s.data key ⟨value, ttlExpiry ttl now⟩),
                          isDirty := false }) := by
  unfold KVStore.create
  rw [validateKey_none s key hvk]
  dsimp only
  rw [show validateValue s value = none by unfold validateValue; rw [if_neg]; omega]
  dsimp only
  unfold acquireLock
  rw [if_neg (by rw [hlock]; exact Bool.false_ne_true)]
  dsimp only
  unfold createTry
  rw [if_neg (by dsimp only; omega)]
  rw [show hasLiveKey { s with lock := key :: s.lock } key now = false from hdup]
  rw [if_neg Bool.false_ne_true]
  dsimp only
  unfold queueSave saveDataMem
  rw [if_neg (by dsimp only; omega)]
  dsimp only
  simp [releaseLock]

theorem batchValidate_tot (s : KVStore) (now : Int)
    (items : List (String × JValue × Option Int)) :
    (batchValidate s now items).2.2 = validatedSizeSum s items := by
  induction items with
  | nil => rfl
  | cons it rest ih =>
    obtain ⟨key, value, ttl⟩ := it
    simp only [batchValidate, validatedSizeSum]
    rcases hbv : batchValidate s now rest with ⟨fk, vi, tot⟩
    rw [hbv] at ih
    simp at ih
    cases hvk : validateKey s key with
    | some e => simp [hvk, ih]
    | none =>
      cases hvv : validateValue s value with
      | some e => simp [hvk, hvv, ih]
      | none =>
        by_cases hdup : hasLiveKey s key now
        · simp [hvk, hvv, hdup, ih]
        · simp [hvk, hvv, hdup, ih]

theorem batchCreate_quota (s : KVStore) (items : List (String × JValue × Option Int))
    (now : Int) (hlen : items.length ≤ s.maxBatchSize) :
    ((KVStore.batchCreate s items now).1 = .error .quotaExceeded
        ↔ s.currentSize + (batchValidate s now items).2.2 > s.maxFileSize) ∧
    (s.currentSize + (batchValidate s now items).2.2 > s.maxFileSize →
        (KVStore.batchCreate s items now).2 = s) := by
  unfold KVStore.batchCreate
  rw [if_neg (by omega)]
  rcases hbv : batchValidate s now items with ⟨fk, vi, tot⟩
  dsimp only
  by_cases hq : s.currentSize + tot > s.maxFileSize
  · rw [if_pos hq]
    exact ⟨⟨fun _ => hq, fun _ => rfl⟩, fun _ => rfl⟩
  · rw [if_neg hq]
    have herr := batchAcquire_err (vi.map (·.1)) s []
    rcases hba : batchAcquire s (vi.map (·.1)) [] with ⟨e?, s1, acq⟩
    rw [hba] at herr
    simp at herr
    constructor
    · constructor
      · intro h
        exfalso
        cases e? with
        | none => rw [hba] at h; simp at h
        | some e =>
          rcases herr with herr | ⟨k, hk⟩
          · cases herr
          · rw [hba] at h
            simp at h
            cases hk
            cases h
      · intro h; exact absurd h hq
    · intro h; exact absurd h hq

/-- C5 (amended): when one batch contains the same key twice and no
unexpired entry for that key pre-exists, both occurrences do pass
validation and enter the surviving candidate list; but instead of the
later occurrence overwriting the earlier one, `batchCreate` then fails
with the bounded-retry lock-timeout error while acquiring the duplicate
key's lock a second time (the first acquisition is still held by the same
batch), inserts nothing, returns no `failedKeys` list, and releases the
one acquired lock, leaving the store exactly as it was. -/
theorem batch_intra_duplicate_behavior (s : KVStore) (key : String) (v1 v2 : JValue)
    (t1 t2 : Option Int) (now : Int)
    (hvk : validateKey s key = none)
    (hv1 : validateValue s v1 = none)
    (hv2 : validateValue s v2 = none)
    (hdup : hasLiveKey s key now = false)
    (hlock : s.lock.contains key = false)
    (hlen : 2 ≤ s.maxBatchSize)
    (hquota : s.currentSize + ((estimateEntrySize key v1 : Int) + ((estimateEntrySize key v2 : Int) + 0)) ≤ s.maxFileSize) :
    (batchValidate s now [(key, v1, t1), (key, v2, t2)]).2.1
        = [(key, v1, t1), (key, v2, t2)] ∧
    KVStore.batchCreate s [(key, v1, t1), (key, v2, t2)] now
        = (.error (.lockTimeout key), s) := by
  have hbv : batchValidate s now [(key, v1, t1), (key, v2, t2)]
      = ([], [(key, v1, t1), (key, v2, t2)],
         (estimateEntrySize key v1 : Int) + ((estimateEntrySize key v2 : Int) + 0)) := by
    simp only [batchValidate]
    rw [hvk, hv1, hv2, hdup]
    simp
  refine ⟨by rw [hbv], ?_⟩
  unfold KVStore.batchCreate
  rw [if_neg (by simp; omega)]
  rw [hbv]
  dsimp only
  rw [if_neg (by omega)]
  have hba : batchAcquire s [key, key] []
      = (some (.lockTimeout key), { s with lock := key :: s.lock }, [key]) := by
    simp only [batchAcquire]
    unfold acquireLock
    rw [if_neg (by rw [hlock]; exact Bool.false_ne_true)]
    dsimp only
    rw [if_pos (by simp)]
  simp only [List.map]
  rw [hba]
  dsimp only
  rw [releaseMany_eq]
  simp [releaseLock]

theorem mapGet_singleton_ne (a : String) (b : KVEntry) (k : String) (h : a ≠ k) :
    mapGet [(a, b)] k = none := by
  simp [mapGet, h]

theorem mapGet_append_none (m1 m2 : List (String × KVEntry)) (k : String)
    (h1 : mapGet m1 k = none) (h2 : mapGet m2 k = none) :
    mapGet (m1 ++ m2) k = none := by
  induction m1 with
  | nil => simpa using h2
  | cons hd tl ih =>
    obtain ⟨k', v'⟩ := hd
    by_cases hk : k' = k
    · simp [mapGet, hk] at h1
    · rw [List.cons_append]
      unfold mapGet at h1 ⊢
      rw [if_neg hk] at h1 ⊢
      exact ih h1

theorem loadData_fold (t : Int) (entries : List (String × KVEntry)) :
    ∀ (st : KVStore),
      (∀ kv ∈ entries, mapGet st.data kv.1 = none) →
      (entries.map Prod.fst).Nodup →
      (entries.foldl
          (fun st kv =>
            if entryLive kv.2 t then
              { st with data := mapSet st.data kv.1 kv.2,
                        currentSize := st.currentSize + (estimateEntrySize kv.1 kv.2.value : Int) }
            else st) st) =
        { st with data := st.data ++ entries.filter (fun kv => entryLive kv.2 t),
                  currentSize := st.currentSize + sumSizes (entries.filter (fun kv => entryLive kv.2 t)) } := by
  induction entries with
  | nil => intro st _ _; simp [sumSizes]
  | cons kv rest ih =>
    intro st hdisj hnodup
    have hget : mapGet st.data kv.1 = none := hdisj kv (by simp)
    have hnd1 : kv.1 ∉ rest.map Prod.fst := by
      simp only [List.map_cons, List.nodup_cons] at hnodup
      exact hnodup.1
    have hndrest : (rest.map Prod.fst).Nodup := by
      simp only [List.map_cons, List.nodup_cons] at hnodup
      exact hnodup.2
    simp only [List.foldl_cons]
    by_cases hlive : entryLive kv.2 t
    · rw [if_pos hlive]
      have hset : mapSet st.data kv.1 kv.2 = st.data ++ [(kv.1, kv.2)] :=
        mapSet_of_get_none _ _ _ hget
      rw [ih _ ?_ hndrest]
      · simp only [hset]
        have hfil : (kv :: rest).filter (fun kv => entryLive kv.2 t)
            = kv :: rest.filter (fun kv => entryLive kv.2 t) := by
          simp [List.filter_cons, hlive]
        rw [hfil, sumSizes_cons]
        simp only [List.append_assoc, List.singleton_append]
        rw [add_assoc]
      · intro kv' hkv'
        have hne : kv.1 ≠ kv'.1 := by
          intro hcontra
          exact hnd1 (by rw [hcontra]; exact List.mem_map_of_mem Prod.fst hkv')
        simp only [hset]
        exact mapGet_append_none _ _ _ (hdisj kv' (by simp [hkv'])) (mapGet_singleton_ne _ _ _ hne)
    · rw [if_neg hlive]
      rw [ih st (fun kv' h' => hdisj kv' (by simp [h'])) hndrest]
      have hfil : (kv :: rest).filter (fun kv => entryLive kv.2 t)
          = rest.filter (fun kv => entryLive kv.2 t) := by
        simp [List.filter_cons, hlive]
      rw [hfil]

/-- C1: the claim fails on the code and the failure is a code bug.  With an
unexpired entry stored under `"k"`, `create("k", "newer")` fails with
`KeyExists` as specified, but the `catch` block's rollback
(`this.data.delete(key); this.currentSize -= entrySize`) — intended only
for the save-failure path — also runs on this pre-insertion error: it
deletes the pre-existing entry from the index and decrements the running
size total by the new entry's estimated size, driving it negative. -/
theorem create_keyExists_destroys_prior_entry :
    (KVStore.create
        (mkStore [("k", ⟨.str "old", none⟩)] (estimateEntrySize "k" (.str "old") : Int))
        "k" (.str "newer") none 5000).1 = .error .keyExists ∧
    mapGet (KVStore.create
        (mkStore [("k", ⟨.str "old", none⟩)] (estimateEntrySize "k" (.str "old") : Int))
        "k" (.str "newer") none 5000).2.data "k" = none ∧
    (KVStore.create
        (mkStore [("k", ⟨.str "old", none⟩)] (estimateEntrySize "k" (.str "old") : Int))
        "k" (.str "newer") none 5000).2.currentSize < 0 :=
  ⟨rfl, rfl, by decide⟩

/-- C2 counterexample: a successful `delete` removes the entry but leaves
the running size total at its prior positive value instead of decreasing
it by the removed entry's estimated size. -/
theorem delete_keeps_currentSize :
    (KVStore.delete
        (mkStore [("k", ⟨.str "old", none⟩)] (estimateEntrySize "k" (.str "old") : Int))
        "k" 5000).1 = .ok () ∧
    (KVStore.delete
        (mkStore [("k", ⟨.str "old", none⟩)] (estimateEntrySize "k" (.str "old") : Int))
        "k" 5000).2.data = [] ∧
    (KVStore.delete
        (mkStore [("k", ⟨.str "old", none⟩)] (estimateEntrySize "k" (.str "old") : Int))
        "k" 5000).2.currentSize = (estimateEntrySize "k" (JValue.str "old") : Int) ∧
    (0 : Int) < (estimateEntrySize "k" (JValue.str "old") : Int) :=
  ⟨rfl, rfl, rfl, by decide⟩

/-- C2 (amended): a successful `create` leaves the running total equal to
the sum of the estimated sizes of all stored entries (the immediate save
recomputes and installs it), hence at most `maxFileSize`; a successful
`delete` removes the entry but leaves the running total unchanged (it is
only reconciled by the next save). -/
theorem size_total_after_create_and_delete :
    ∀ (s : KVStore) (key : String) (value : JValue) (ttl : Option Int) (now : Int),
      ((KVStore.create s key value ttl now).1 = .ok () →
          (KVStore.create s key value ttl now).2.currentSize
              = sumSizes (KVStore.create s key value ttl now).2.data ∧
          (KVStore.create s key value ttl now).2.currentSize ≤ s.maxFileSize) ∧
      ((KVStore.delete s key now).1 = .ok () →
          (KVStore.delete s key now).2.data = mapDelete s.data key ∧
          (KVStore.delete s key now).2.currentSize = s.currentSize) := by
  intro s key value ttl now
  constructor
  · intro h
    obtain ⟨hpost, hle⟩ := create_ok_spec s key value ttl now h
    rw [hpost]
    exact ⟨rfl, hle⟩
  · intro h
    rw [delete_ok_spec s key now h]
    exact ⟨rfl, rfl⟩

/-- Witness for the amended C2 at concrete inputs. -/
theorem size_total_after_create_and_delete_witness :
    ((KVStore.create (mkStore [] 0) "k" (.str "v") none 5000).1 = .ok ()) ∧
    ((KVStore.delete (mkStore [("k", ⟨.str "old", none⟩)] 35) "k" 5000).1 = .ok ()) ∧
    ((KVStore.create (mkStore [] 0) "k" (.str "v") none 5000).2.currentSize
        = sumSizes (KVStore.create (mkStore [] 0) "k" (.str "v") none 5000).2.data) ∧
    ((KVStore.delete (mkStore [("k", ⟨.str "old", none⟩)] 35) "k" 5000).2.currentSize
        = (mkStore [("k", ⟨.str "old", none⟩)] 35).currentSize) :=
  ⟨rfl, rfl,
   ((size_total_after_create_and_delete (mkStore [] 0) "k" (.str "v") none 5000).1 rfl).1,
   ((size_total_after_create_and_delete (mkStore [("k", ⟨.str "old", none⟩)] 35)
        "k" (.str "v") none 5000).2 rfl).2⟩

/-- C3 counterexample: `create` with `ttl = -1` (a value the claim covers
under "ttl ≤ 0 ⇒ no expiry") succeeds and stores the past instant
`now - 1000` as the expiry instead of storing no expiry. -/
theorem create_negative_ttl_stores_past_expiry :
    (KVStore.create (mkStore [] 0) "t" (.str "v") (some (-1)) 5000).1 = .ok () ∧
    mapGet (KVStore.create (mkStore [] 0) "t" (.str "v") (some (-1)) 5000).2.data "t"
        = some ⟨.str "v", some 4000⟩ :=
  ⟨rfl, rfl⟩

/-- C3 (amended): a successful `create` stores the entry with expiry
`ttlExpiry ttl now`; that expiry is `null` exactly when `ttl` is absent or
equal to `0` (the JavaScript-falsy case), and is `now + ttl*1000` for
every other `ttl`, negative values included. -/
theorem create_stored_expiry :
    ∀ (s : KVStore) (key : String) (value : JValue) (ttl : Option Int) (now : Int),
      ((KVStore.create s key value ttl now).1 = .ok () →
          mapGet (KVStore.create s key value ttl now).2.data key
              = some ⟨value, ttlExpiry ttl now⟩) ∧
      ttlExpiry none now = none ∧
      ttlExpiry (some 0) now = none ∧
      (∀ t : Int, t ≠ 0 → ttlExpiry (some t) now = some (now + t * 1000)) := by
  intro s key value ttl now
  refine ⟨?_, rfl, by simp [ttlExpiry], ?_⟩
  · intro h
    obtain ⟨hpost, _⟩ := create_ok_spec s key value ttl now h
    rw [hpost]
    exact mapGet_mapSet_self _ _ _
  · intro t ht
    simp [ttlExpiry, ht]

/-- Witness for the amended C3 at concrete inputs. -/
theorem create_stored_expiry_witness :
    ((KVStore.create (mkStore [] 0) "t" (.str "v") (some 2) 5000).1 = .ok ()) ∧
    ((2 : Int) ≠ 0) ∧
    mapGet (KVStore.create (mkStore [] 0) "t" (.str "v") (some 2) 5000).2.data "t"
        = some ⟨.str "v", ttlExpiry (some 2) 5000⟩ ∧
    ttlExpiry (some 2) 5000 = some (5000 + 2 * 1000) :=
  ⟨rfl, by decide,
   (create_stored_expiry (mkStore [] 0) "t" (.str "v") (some 2) 5000).1 rfl,
   (create_stored_expiry (mkStore [] 0) "t" (.str "v") (some 2) 5000).2.2.2 2 (by decide)⟩

/-- C4 counterexample: with an unexpired entry stored under `"a"` and a
batch consisting only of a colliding item, no candidate survives and the
current size plus the surviving sum (zero) is within the limit, yet the
whole batch fails with `QuotaExceeded` — because the guard also counted
the collided item's estimated size. -/
theorem batch_quota_counts_collided_item :
    (KVStore.batchCreate (mkStoreMax 40 [("a", ⟨.str "xyz", none⟩)] 35)
        [("a", .str "xyz", none)] 5000).1 = .error .quotaExceeded ∧
    (batchValidate (mkStoreMax 40 [("a", ⟨.str "xyz", none⟩)] 35) 5000
        [("a", .str "xyz", none)]).2.1 = [] ∧
    (mkStoreMax 40 [("a", ⟨.str "xyz", none⟩)] 35).currentSize + sumSizes []
        ≤ (mkStoreMax 40 [("a", ⟨.str "xyz", none⟩)] 35).maxFileSize :=
  ⟨rfl, rfl, by decide⟩

/-- C4 (amended): the all-or-nothing quota guard of `batchCreate` sums the
estimated sizes of every item that passes key/value validation — items
excluded for colliding with a pre-existing unexpired key included — and,
for a batch within the length bound, the batch fails with `QuotaExceeded`
(leaving the store unchanged, nothing inserted) exactly when the current
size plus that sum exceeds the max total bytes. -/
theorem batch_quota_guard (s : KVStore) (items : List (String × JValue × Option Int))
    (now : Int) (hlen : items.length ≤ s.maxBatchSize) :
    (batchValidate s now items).2.2 = validatedSizeSum s items ∧
    ((KVStore.batchCreate s items now).1 = .error .quotaExceeded
        ↔ s.currentSize + validatedSizeSum s items > s.maxFileSize) ∧
    (s.currentSize + validatedSizeSum s items > s.maxFileSize →
        (KVStore.batchCreate s items now).2 = s) := by
  have htot := batchValidate_tot s now items
  obtain ⟨hiff, hpost⟩ := batchCreate_quota s items now hlen
  rw [htot] at hiff hpost
  exact ⟨htot, hiff, hpost⟩

/-- Witness for the amended C4 at concrete inputs. -/
theorem batch_quota_guard_witness :
    ([("a", JValue.str "xyz", (none : Option Int))].length
        ≤ (mkStoreMax 40 [("a", ⟨.str "xyz", none⟩)] 35).maxBatchSize) ∧
    ((KVStore.batchCreate (mkStoreMax 40 [("a", ⟨.str "xyz", none⟩)] 35)
            [("a", .str "xyz", none)] 5000).1 = .error .quotaExceeded
      ↔ (mkStoreMax 40 [("a", ⟨.str "xyz", none⟩)] 35).currentSize
          + validatedSizeSum (mkStoreMax 40 [("a", ⟨.str "xyz", none⟩)] 35)
              [("a", .str "xyz", none)]
          > (mkStoreMax 40 [("a", ⟨.str "xyz", none⟩)] 35).maxFileSize) :=
  ⟨by decide,
   (batch_quota_guard (mkStoreMax 40 [("a", ⟨.str "xyz", none⟩)] 35)
      [("a", .str "xyz", none)] 5000 (by decide)).2.1⟩

/-- C5 counterexample: a batch holding the same fresh key twice does not
end with the later value stored and an empty `failedKeys`; it fails with
the lock-timeout error and inserts nothing, leaving the store unchanged. -/
theorem batch_intra_duplicate_times_out :
    KVStore.batchCreate (mkStore [] 0)
        [("b", .str "x", none), ("b", .str "y", none)] 5000
      = (.error (.lockTimeout "b"), mkStore [] 0) ∧
    mapGet (KVStore.batchCreate (mkStore [] 0)
        [("b", .str "x", none), ("b", .str "y", none)] 5000).2.data "b" = none :=
  ⟨rfl, rfl⟩

/-- Witness for the amended C5 at concrete inputs. -/
theorem batch_intra_duplicate_behavior_witness :
    validateKey (mkStore [] 0) "b" = none ∧
    hasLiveKey (mkStore [] 0) "b" 5000 = false ∧
    (batchValidate (mkStore [] 0) 5000
        [("b", .str "x", none), ("b", .str "y", none)]).2.1
      = [("b", .str "x", none), ("b", .str "y", none)] :=
  ⟨rfl, rfl,
   (batch_intra_duplicate_behavior (mkStore [] 0) "b" (.str "x") (.str "y")
      none none 5000 rfl rfl rfl rfl rfl (by decide) (by decide)).1⟩

/-- C6 counterexample: with the sentinel `"compact"` lock held (as it is
throughout a compaction), `create` on another key succeeds and inserts
into the index — the sentinel lock does not prevent index mutation by
other operations. -/
theorem create_inserts_while_compact_locked :
    (KVStore.create { mkStore [] 0 with lock := ["compact"] }
        "k" (.str "v") none 5000).1 = .ok () ∧
    mapGet (KVStore.create { mkStore [] 0 with lock := ["compact"] }
        "k" (.str "v") none 5000).2.data "k" = some ⟨.str "v", none⟩ :=
  ⟨rfl, rfl⟩

theorem mapDelete_length (m : List (String × KVEntry)) (k : String) (item : KVEntry)
    (h : mapGet m k = some item) : (mapDelete m k).length + 1 = m.length := by
  induction m with
  | nil => simp [mapGet] at h
  | cons hd tl ih =>
    obtain ⟨k', v'⟩ := hd
    by_cases hk : k' = k
    · simp [mapDelete, hk]
    · simp only [mapGet, if_neg hk] at h
      have := ih h
      simp only [mapDelete, if_neg hk, List.length_cons]
      omega

theorem read_run (s : KVStore) (key : String) (now : Int)
    (hvk : key.length ≤ s.maxKeyLength) (hlock : s.lock.contains key = false)
    (item : KVEntry) (hget : mapGet s.data key = some item)
    (hexp : entryExpired item now = false) :
    KVStore.read s key now = (.ok item.value, s) := by
  unfold KVStore.read
  rw [validateKey_none s key hvk]
  dsimp only
  unfold acquireLock
  rw [if_neg (by rw [hlock]; exact Bool.false_ne_true)]
  dsimp only
  rw [hget]
  dsimp only
  rw [if_neg (by simp [hexp])]
  simp [releaseLock]

theorem delete_run (s : KVStore) (key : String) (now : Int)
    (hvk : key.length ≤ s.maxKeyLength) (hlock : s.lock.contains key = false)
    (item : KVEntry) (hget : mapGet s.data key = some item)
    (hexp : entryExpired item now = false) :
    KVStore.delete s key now
      = (.ok (), { s with data := mapDelete s.data key,
                          isDirty := true, timerSet := true }) := by
  unfold KVStore.delete
  rw [validateKey_none s key hvk]
  dsimp only
  unfold acquireLock
  rw [if_neg (by rw [hlock]; exact Bool.false_ne_true)]
  dsimp only
  rw [hget]
  dsimp only
  rw [if_neg (by simp [hexp])]
  simp [releaseLock, scheduleSave]

/-- C6 (amended): the sentinel lock only serializes operations that acquire
the literal key `"compact"` — a second `compact` fails with the
lock-timeout error and changes nothing while the sentinel is held — but
`create`, `read` and `delete` on any other key never consult the sentinel:
while `"compact"` is held, a valid, quota-respecting `create` on a free
fresh key still succeeds and inserts its entry into the index, `read` of a
present unexpired key is not blocked and returns its value, and `delete`
of such a key is not blocked either and removes its entry from the index
(shrinking it by one). -/
theorem compact_sentinel_scope :
    ∀ (s : KVStore) (now : Int),
      (s.lock.contains "compact" = true →
          KVStore.compact s now = (.error (.lockTimeout "compact"), s)) ∧
      (∀ (key : String) (value : JValue) (ttl : Option Int),
          s.lock.contains "compact" = true →
          s.lock.contains key = false →
          key.length ≤ s.maxKeyLength →
          byteLen (JValue.stringify value) ≤ s.maxValueSize →
          hasLiveKey s key now = false →
          s.currentSize + (estimateEntrySize key value : Int) ≤ s.maxFileSize →
          sumSizes (mapSet s.data key ⟨value, ttlExpiry ttl now⟩) ≤ s.maxFileSize →
          (KVStore.create s key value ttl now).1 = .ok () ∧
          mapGet (KVStore.create s key value ttl now).2.data key
              = some ⟨value, ttlExpiry ttl now⟩) ∧
      (∀ (key : String) (item : KVEntry),
          s.lock.contains "compact" = true →
          s.lock.contains key = false →
          key.length ≤ s.maxKeyLength →
          mapGet s.data key = some item →
          entryExpired item now = false →
          KVStore.read s key now = (.ok item.value, s) ∧
          KVStore.delete s key now
              = (.ok (), { s with data := mapDelete s.data key,
                                  isDirty := true, timerSet := true }) ∧
          ((KVStore.delete s key now).2.data).length + 1 = s.data.length) := by
  intro s now
  refine ⟨?_, ?_, ?_⟩
  · intro hc
    unfold KVStore.compact acquireLock
    rw [if_pos hc]
  · intro key value ttl _ hlock hvk hvv hdup hq hs
    have hr := create_run s key value ttl now hvk hvv hlock hq hdup hs
    rw [hr]
    exact ⟨rfl, mapGet_mapSet_self _ _ _⟩
  · intro key item _ hlock hvk hget hexp
    refine ⟨read_run s key now hvk hlock item hget hexp,
            delete_run s key now hvk hlock item hget hexp, ?_⟩
    rw [delete_run s key now hvk hlock item hget hexp]
    exact mapDelete_length s.data key item hget

/-- Witness for the amended C6 at concrete inputs: on a store observed
mid-compaction, a second compact times out, a fresh-key create inserts,
and the stored key is still readable and deletable. -/
theorem compact_sentinel_scope_witness :
    (sentinelStore.lock.contains "compact" = true) ∧
    KVStore.compact sentinelStore 5000
        = (.error (.lockTimeout "compact"), sentinelStore) ∧
    mapGet (KVStore.create sentinelStore "x" (.str "w") none 5000).2.data "x"
        = some ⟨.str "w", ttlExpiry none 5000⟩ ∧
    KVStore.read sentinelStore "k" 5000 = (.ok (.str "v"), sentinelStore) ∧
    KVStore.delete sentinelStore "k" 5000
        = (.ok (), { sentinelStore with data := mapDelete sentinelStore.data "k",
                                        isDirty := true, timerSet := true }) :=
  ⟨rfl,
   (compact_sentinel_scope sentinelStore 5000).1 rfl,
   ((compact_sentinel_scope sentinelStore 5000).2.1
      "x" (.str "w") none rfl (by decide) (by decide) (by decide) rfl
      (by decide) (by decide)).2,
   ((compact_sentinel_scope sentinelStore 5000).2.2
      "k" ⟨.str "v", none⟩ rfl (by decide) (by decide) rfl rfl).1,
   ((compact_sentinel_scope sentinelStore 5000).2.2
      "k" ⟨.str "v", none⟩ rfl (by decide) (by decide) rfl rfl).2.1⟩

/-- Witness for C7 at concrete inputs: reading a present unexpired key
returns its value and leaves the store unchanged. -/
theorem read_contract_witness :
    ("k".length ≤ (mkStore [("k", ⟨.str "v", none⟩)] 33).maxKeyLength) ∧
    ((mkStore [("k", ⟨.str "v", none⟩)] 33).lock.contains "k" = false) ∧
    KVStore.read (mkStore [("k", ⟨.str "v", none⟩)] 33) "k" 5000
        = (.ok (.str "v"), mkStore [("k", ⟨.str "v", none⟩)] 33) :=
  ⟨by decide, rfl,
   (read_contract (mkStore [("k", ⟨.str "v", none⟩)] 33) "k" 5000
      (by decide) rfl).2.2 ⟨.str "v", none⟩ rfl rfl⟩

/-- C8: a successful save leaves the backing file holding exactly the
serialized index, and re-initializing from that file (at any later load
instant, into any fresh store whose limit admits the file's actual byte
size, so that the `stats.size` guard passes) reproduces exactly the
entries that are live at load time — entries whose expiry is at-or-before
load time are discarded — and rebuilds the in-memory size total as the sum
of the survivors' estimated sizes. -/
theorem save_load_roundtrip (s : KVStore) (fs : FileSys) (s' : KVStore) (t : Int)
    (hnodup : (s.data.map Prod.fst).Nodup)
    (hquota : sumSizes s.data ≤ s.maxFileSize)
    (hsize : (fileByteSize s.data : Int) ≤ s'.maxFileSize) :
    (saveData s fs .ok).1 = none ∧
    (saveData s fs .ok).2.2.file = s.data ∧
    loadData s' (saveData s fs .ok).2.2.file t
        = .ok { s' with data := s.data.filter (fun kv => entryLive kv.2 t),
                        currentSize := sumSizes (s.data.filter (fun kv => entryLive kv.2 t)) } := by
  have h1 : saveData s fs .ok
      = (none, { s with currentSize := sumSizes s.data, isDirty := false },
         { file := s.data, temp := none }) := by
    unfold saveData
    rw [if_neg (by omega)]
  rw [h1]
  have h2 := loadData_fold t s.data ({ s' with data := [], currentSize := 0 })
      (fun kv _ => rfl) hnodup
  refine ⟨rfl, rfl, ?_⟩
  show loadData s' s.data t = _
  unfold loadData
  rw [if_neg (by omega)]
  unfold loadEntries
  rw [h2]
  simp

/-- Witness for C8 at concrete inputs: a store holding one permanent and
one already-expired entry round-trips to just the permanent entry. -/
theorem save_load_roundtrip_witness :
    ((([("a", (⟨.num 1, none⟩ : KVEntry)), ("b", ⟨.num 2, some 100⟩)]).map Prod.fst).Nodup) ∧
    (sumSizes [("a", ⟨.num 1, none⟩), ("b", ⟨.num 2, some 100⟩)]
        ≤ (mkStore [("a", ⟨.num 1, none⟩), ("b", ⟨.num 2, some 100⟩)] 0).maxFileSize) ∧
    ((fileByteSize [("a", ⟨.num 1, none⟩), ("b", ⟨.num 2, some 100⟩)] : Int)
        ≤ (mkStore [] 0).maxFileSize) ∧
    loadData (mkStore [] 0)
        (saveData (mkStore [("a", ⟨.num 1, none⟩), ("b", ⟨.num 2, some 100⟩)] 0)
            ⟨[], none⟩ .ok).2.2.file 5000
      = .ok { mkStore [] 0 with
              data := ([("a", ⟨.num 1, none⟩), ("b", ⟨.num 2, some 100⟩)] :
                  List (String × KVEntry)).filter (fun kv => entryLive kv.2 5000),
              currentSize := sumSizes (([("a", ⟨.num 1, none⟩), ("b", ⟨.num 2, some 100⟩)] :
                  List (String × KVEntry)).filter (fun kv => entryLive kv.2 5000)) } :=
  ⟨by decide, by decide, by decide,
   (save_load_roundtrip (mkStore [("a", ⟨.num 1, none⟩), ("b", ⟨.num 2, some 100⟩)] 0)
      ⟨[], none⟩ (mkStore [] 0) 5000 (by decide) (by decide) (by decide)).2.2⟩

/-- C9: `saveData` recomputes the total from the index and fails
`QuotaExceeded` above the limit without touching any file or state; below
the limit, a rename failure removes the temporary file and propagates the
error with the store state (cached total, dirty flag) unchanged, a write
permission failure is reported as the permission error with nothing
changed, and only the fully successful save installs the recomputed total,
clears the dirty flag and leaves the backing file holding the serialized
index with the temp file gone. -/
theorem saveData_contract (s : KVStore) (fs : FileSys) :
    (sumSizes s.data > s.maxFileSize →
        ∀ fault, saveData s fs fault = (some .quotaExceeded, s, fs)) ∧
    (sumSizes s.data ≤ s.maxFileSize →
        saveData s fs .renameFail
            = (some .renameFailed, s, { file := fs.file, temp := none }) ∧
        saveData s fs .writeDenied = (some .permissionDenied, s, fs) ∧
        saveData s fs .ok
            = (none, { s with currentSize := sumSizes s.data, isDirty := false },
               { file := s.data, temp := none })) := by
  constructor
  · intro h fault
    unfold saveData
    rw [if_pos h]
  · intro h
    refine ⟨?_, ?_, ?_⟩ <;> (unfold saveData; rw [if_neg (by omega)])

/-- Witness for C9 at concrete inputs. -/
theorem saveData_contract_witness :
    (sumSizes (mkStore [("a", ⟨.num 1, none⟩)] 0).data
        ≤ (mkStore [("a", ⟨.num 1, none⟩)] 0).maxFileSize) ∧
    saveData (mkStore [("a", ⟨.num 1, none⟩)] 0) ⟨[], none⟩ .renameFail
        = (some .renameFailed, mkStore [("a", ⟨.num 1, none⟩)] 0, ⟨[], none⟩) :=
  ⟨by decide,
   ((saveData_contract (mkStore [("a", ⟨.num 1, none⟩)] 0) ⟨[], none⟩).2 (by decide)).1⟩

/-- C10: every operation leaves the per-key lock table exactly as it found
it, on success and on every error path alike: `create`, `read`, `delete`
and `compact` release the one lock they acquired, and `batchCreate`
releases every accumulated lock even when acquisition fails midway — no
operation leaks a lock-table entry. -/
theorem locks_never_leak :
    ∀ (s : KVStore) (key : String) (value : JValue) (ttl : Option Int) (now : Int)
      (items : List (String × JValue × Option Int)),
      (KVStore.create s key value ttl now).2.lock = s.lock ∧
      (KVStore.read s key now).2.lock = s.lock ∧
      (KVStore.delete s key now).2.lock = s.lock ∧
      (KVStore.batchCreate s items now).2.lock = s.lock ∧
      (KVStore.compact s now).2.lock = s.lock :=
  fun s key value ttl now items =>
    ⟨create_lock_eq s key value ttl now, read_lock_eq s key now,
     delete_lock_eq s key now, batchCreate_lock_eq s items now,
     compact_lock_eq s now⟩
